import Mathlib

/-!
Verification of the ps-client library (`psclient/__init__.py`): a shallow
embedding of the protocol message parser, the session-state tracker
(rooms, users, authority sets, membership index), the identifier
normalizer, and the rate-limited send, together with theorems settling
the specification claims.

Conventions of the embedding:
* Python strings are Lean `String`s; the string operations used by the
  source (`split`, `join`, `strip`, `lower`, indexing) are modelled by
  executable functions over `String.toList`.
* Python dictionaries that the source iterates and mutates are modelled
  as insertion-ordered association lists, matching `dict` semantics
  (unique keys, lookup by key, assignment of a fresh key appends).
* Python sets of identifiers are `Finset String`.
* Fallible code (IndexError on short field lists, AttributeError on
  `None`/wrong-type attribute access, ValueError from `list.index`)
  returns `Except PyError`.
* The external collaborators (websocket transport, HTTP login,
  `json.loads`, the chat logger) are not code of this repository; they
  enter only as parameters or as recorded effects on the session state.
-/

namespace PSClient

/-- The Python exceptions that the embedded code can raise. -/
inductive PyError where
  | indexError : PyError
  | valueError : PyError
  | attributeError : String → PyError
deriving DecidableEq, Repr

/-- List indexing as Python does it: `l[i]` raises IndexError when out of
range (only non-negative indices occur in the embedded code). -/
def pyGet {α : Type} (l : List α) (i : Nat) : Except PyError α :=
  match l[i]? with
  | some x => Except.ok x
  | none => Except.error PyError.indexError

/-- The characters kept by `re.sub('[^0-9a-zA-Z]+', '', string)` in `toID`:
ASCII digits and ASCII letters. -/
def isAsciiAlnum (c : Char) : Bool :=
  decide (('0' ≤ c ∧ c ≤ '9') ∨ ('a' ≤ c ∧ c ≤ 'z') ∨ ('A' ≤ c ∧ c ≤ 'Z'))

/-- Model of Python `str.lower` on one character. After the regex
substitution in `toID` only ASCII alphanumerics remain, on which Python's
(Unicode-aware) `str.lower` agrees with ASCII lowercasing. -/
def lowerChar (c : Char) : Char :=
  if 'A' ≤ c ∧ c ≤ 'Z' then Char.ofNat (c.toNat + 32) else c

/-- `toID` (psclient/__init__.py lines 18-27): converts a string into an ID
by `re.sub('[^0-9a-zA-Z]+', '', string).lower()` — drop every character
that is not an ASCII alphanumeric, then lowercase. -/
def toID (s : String) : String :=
  String.mk (((s.toList.filter isAsciiAlnum).map lowerChar))

theorem charLe_toNat (a b : Char) : a ≤ b ↔ a.toNat ≤ b.toNat := by
  rw [Char.le_def, UInt32.le_def, BitVec.le_def]
  exact Iff.rfl

theorem toNat_ofNat_valid (n : Nat) (h : n.isValidChar) :
    (Char.ofNat n).toNat = n := by
  simp [Char.ofNat, h, Char.ofNatAux, Char.toNat, UInt32.toNat]

theorem lowerChar_toNat_of_upper {c : Char} (h1 : 'A' ≤ c) (h2 : c ≤ 'Z') :
    (lowerChar c).toNat = c.toNat + 32 := by
  rw [charLe_toNat] at h1 h2
  have hA : ('A' : Char).toNat = 65 := by decide
  have hZ : ('Z' : Char).toNat = 90 := by decide
  rw [hA] at h1
  rw [hZ] at h2
  have hv : (c.toNat + 32).isValidChar := by
    left
    omega
  rw [lowerChar, if_pos ⟨(charLe_toNat _ _).mpr (by rw [hA]; omega),
    (charLe_toNat _ _).mpr (by rw [hZ]; omega)⟩]
  exact toNat_ofNat_valid _ hv

theorem lowerChar_of_not_upper {c : Char} (h : ¬('A' ≤ c ∧ c ≤ 'Z')) :
    lowerChar c = c := if_neg h

theorem lowerChar_idem (c : Char) : lowerChar (lowerChar c) = lowerChar c := by
  by_cases h : 'A' ≤ c ∧ c ≤ 'Z'
  · have ht := lowerChar_toNat_of_upper h.1 h.2
    have h1 : (charLe_toNat 'A' c).mp h.1 = (charLe_toNat 'A' c).mp h.1 := rfl
    have hA : ('A' : Char).toNat = 65 := by decide
    have hZ : ('Z' : Char).toNat = 90 := by decide
    have hc1 : 65 ≤ c.toNat := by
      have := (charLe_toNat _ _).mp h.1
      rwa [hA] at this
    have hc2 : c.toNat ≤ 90 := by
      have := (charLe_toNat _ _).mp h.2
      rwa [hZ] at this
    apply lowerChar_of_not_upper
    intro hcontra
    have := (charLe_toNat _ _).mp hcontra.2
    rw [hZ, ht] at this
    omega
  · rw [lowerChar_of_not_upper h]
    exact lowerChar_of_not_upper h

theorem isAsciiAlnum_lowerChar {c : Char} (h : isAsciiAlnum c = true) :
    isAsciiAlnum (lowerChar c) = true := by
  rw [isAsciiAlnum, decide_eq_true_iff] at h
  by_cases hu : 'A' ≤ c ∧ c ≤ 'Z'
  · have ht := lowerChar_toNat_of_upper hu.1 hu.2
    have hA : ('A' : Char).toNat = 65 := by decide
    have hZ : ('Z' : Char).toNat = 90 := by decide
    have hc1 : 65 ≤ c.toNat := by
      have := (charLe_toNat _ _).mp hu.1
      rwa [hA] at this
    have hc2 : c.toNat ≤ 90 := by
      have := (charLe_toNat _ _).mp hu.2
      rwa [hZ] at this
    rw [isAsciiAlnum, decide_eq_true_iff]
    right
    left
    constructor
    · rw [charLe_toNat]
      have ha : ('a' : Char).toNat = 97 := by decide
      rw [ha, ht]
      omega
    · rw [charLe_toNat]
      have hz : ('z' : Char).toNat = 122 := by decide
      rw [hz, ht]
      omega
  · rw [lowerChar_of_not_upper hu, isAsciiAlnum, decide_eq_true_iff]
    exact h

theorem toList_mk (l : List Char) : (String.mk l).toList = l := rfl

theorem toID_idem (s : String) : toID (toID s) = toID s := by
  rw [toID, toID, toList_mk]
  have hfilter :
      ((s.toList.filter isAsciiAlnum).map lowerChar).filter isAsciiAlnum
        = (s.toList.filter isAsciiAlnum).map lowerChar := by
    apply List.filter_eq_self.mpr
    intro x hx
    rcases List.mem_map.mp hx with ⟨y, hy, rfl⟩
    exact isAsciiAlnum_lowerChar (List.of_mem_filter hy)
  rw [hfilter, List.map_map]
  congr 1
  apply List.map_congr_left
  intro x _
  exact lowerChar_idem x

/-- C3 counterexample: the spec's claimed identity
`normalize "HI" = normalize "$&@*%$HI   ^4åå"` is false on the code:
`toID "HI" = "hi"` while `toID "$&@*%$HI   ^4åå" = "hi4"`. -/
theorem toID_concrete_equality_false :
    toID "HI" = "hi" ∧ toID "$&@*%$HI   ^4åå" = "hi4" ∧
      toID "HI" ≠ toID "$&@*%$HI   ^4åå" := by
  refine ⟨by decide, by decide, by decide⟩

/-- C3 (amended): the identifier normalizer `toID` is total (its
empty-input value is the empty identifier) and idempotent on every
string, and on the concrete input from the spec it yields "hi4"
(`toID "HI"` itself yields "hi", not "hi4"). -/
theorem toID_total_idem_concrete :
    toID "" = "" ∧ (∀ s : String, toID (toID s) = toID s) ∧
      toID "$&@*%$HI   ^4åå" = "hi4" := by
  refine ⟨rfl, toID_idem, by decide⟩

/-- `ranksInOrder` (lines 15-16): the fixed nine-symbol rank scale, in
order from lowest to highest. Python stores it as one-character strings;
the embedding uses `Char`. -/
def ranksInOrder : List Char := ['+', '%', '☆', '@', '★', '*', '#', '&', '~']

instance {ε α : Type} [DecidableEq ε] [DecidableEq α] :
    DecidableEq (Except ε α) := fun x y =>
  match x, y with
  | Except.ok a, Except.ok b =>
    if h : a = b then isTrue (congrArg Except.ok h)
    else isFalse (fun hc => h (Except.ok.inj hc))
  | Except.error a, Except.error b =>
    if h : a = b then isTrue (congrArg Except.error h)
    else isFalse (fun hc => h (Except.error.inj hc))
  | Except.ok _, Except.error _ => isFalse (fun hc => Except.noConfusion hc)
  | Except.error _, Except.ok _ => isFalse (fun hc => Except.noConfusion hc)

/-- Python `dict` lookup on the auth mapping (first entry with the key). -/
def authGet : List (Char × Finset String) → Char → Option (Finset String)
  | [], _ => none
  | kv :: rest, c => if kv.1 = c then some kv.2 else authGet rest c

/-- The set held at a rank, defaulting to the empty set when the rank has
no entry. -/
def authGetD (auth : List (Char × Finset String)) (c : Char) : Finset String :=
  (authGet auth c).getD ∅

/-- One iteration of the loop in `Room.updateAuth` (lines 54-59): if the
key is present, union the incoming identifiers into the existing set
(`if user not in self.auth[key]: self.auth[key].add(user)`), otherwise
bind the key to a fresh set (`self.auth[key] = set(authDict[key])`,
which a dict appends after the existing keys). -/
def authInsert : List (Char × Finset String) → Char → Finset String →
    List (Char × Finset String)
  | [], k, v => [(k, v)]
  | kv :: rest, k, v =>
    if kv.1 = k then (kv.1, kv.2 ∪ v) :: rest else kv :: authInsert rest k v

/-- `Room.updateAuth` (lines 48-59): merge an auth-update dictionary into
the room's auth mapping, one key at a time. -/
def updateAuth (auth upd : List (Char × Finset String)) :
    List (Char × Finset String) :=
  upd.foldl (fun a kv => authInsert a kv.1 kv.2) auth

/-- Whether the update dictionary carries the given rank key. -/
def updHasKey : List (Char × Finset String) → Char → Bool
  | [], _ => false
  | kv :: rest, c => if kv.1 = c then true else updHasKey rest c

/-- The union of every identifier set the update carries for a rank. -/
def updUnion : List (Char × Finset String) → Char → Finset String
  | [], _ => ∅
  | kv :: rest, c => (if kv.1 = c then kv.2 else ∅) ∪ updUnion rest c

theorem updUnion_of_not_hasKey {upd : List (Char × Finset String)} {c : Char}
    (h : updHasKey upd c = false) : updUnion upd c = ∅ := by
  induction upd with
  | nil => rfl
  | cons kv rest ih =>
    rw [updHasKey] at h
    by_cases hk : kv.1 = c
    · rw [if_pos hk] at h
      exact absurd h (by simp)
    · rw [if_neg hk] at h
      rw [updUnion, if_neg hk, ih h, Finset.empty_union]

theorem authGet_authInsert (a : List (Char × Finset String)) (k : Char)
    (v : Finset String) (c : Char) :
    authGet (authInsert a k v) c
      = if k = c then some (authGetD a c ∪ v) else authGet a c := by
  induction a with
  | nil =>
    by_cases h : k = c <;> simp [authInsert, authGet, authGetD, h]
  | cons kv rest ih =>
    obtain ⟨k1, v1⟩ := kv
    by_cases hk : k1 = k
    · subst hk
      by_cases hc : k1 = c
      · subst hc
        simp [authInsert, authGet, authGetD]
      · simp [authInsert, authGet, authGetD, hc]
    · by_cases hc : k1 = c
      · subst hc
        have hkc : ¬(k = k1) := fun h => hk h.symm
        simp [authInsert, authGet, authGetD, hk, hkc]
      · simp [authInsert, authGet, authGetD, hk, hc, ih]

theorem authGetD_authInsert (a : List (Char × Finset String)) (k : Char)
    (v : Finset String) (c : Char) :
    authGetD (authInsert a k v) c
      = if k = c then authGetD a c ∪ v else authGetD a c := by
  by_cases h : k = c <;>
    simp [authGetD, authGet_authInsert, h]

theorem authGet_updateAuth (upd a : List (Char × Finset String)) (c : Char) :
    authGet (updateAuth a upd) c
      = if updHasKey upd c then some (authGetD a c ∪ updUnion upd c)
        else authGet a c := by
  induction upd generalizing a with
  | nil =>
    simp [updateAuth, updHasKey]
  | cons kv rest ih =>
    have hstep : updateAuth a (kv :: rest)
        = updateAuth (authInsert a kv.1 kv.2) rest := rfl
    rw [hstep, ih]
    by_cases hk : kv.1 = c
    · by_cases hrest : updHasKey rest c
      · simp [updHasKey, updUnion, hk, hrest, authGetD_authInsert,
          Finset.union_assoc]
      · have hrf : updHasKey rest c = false := by simpa using hrest
        simp [updHasKey, updUnion, hk, hrf, authGet_authInsert,
          updUnion_of_not_hasKey hrf, Finset.union_empty]
    · by_cases hrest : updHasKey rest c
      · simp [updHasKey, updUnion, hk, hrest, authGetD_authInsert,
          Finset.empty_union]
      · simp [updHasKey, updUnion, hk, hrest, authGet_authInsert]

theorem authGetD_updateAuth (a upd : List (Char × Finset String)) (c : Char) :
    authGetD (updateAuth a upd) c = authGetD a c ∪ updUnion upd c := by
  rw [authGetD, authGet_updateAuth]
  by_cases h : updHasKey upd c
  · rw [if_pos h, Option.getD_some]
  · rw [if_neg h, updUnion_of_not_hasKey (by simpa using h),
      Finset.union_empty]
    rfl

/-- `Room.usersWithRankGEQ` (lines 81-94): union of the auth sets for
every rank at or above the given rank on the fixed scale.
`ranksInOrder.index(rank)` raises ValueError when the rank is not on the
scale, modelled by `List.findIdx?` returning `none`. -/
def usersWithRankGEQ (auth : List (Char × Finset String)) (rank : Char) :
    Except PyError (Finset String) :=
  match List.findIdx? (fun r => decide (r = rank)) ranksInOrder with
  | none => Except.error PyError.valueError
  | some i => Except.ok ((ranksInOrder.drop i).foldl
      (fun acc r =>
        match authGet auth r with
        | some s => acc ∪ s
        | none => acc) ∅)

/-- C4: merging auth updates is monotonic (an identifier present at a
rank stays present across any later merge) and commutative across calls
(the resulting auth mapping is the rank-wise union, identical in either
merge order), and `usersWithRankGEQ` returns the scale-cumulative union:
after merging #→{o1,o2}, *→{b1,b2}, @→{m1,m2}, the users with rank at
least '@' are {o1,o2,b1,b2,m1,m2}. -/
theorem updateAuth_monotone_commutative_cumulative :
    (∀ (auth upd : List (Char × Finset String)) (c : Char) (u : String),
        u ∈ authGetD auth c → u ∈ authGetD (updateAuth auth upd) c) ∧
    (∀ (auth u1 u2 : List (Char × Finset String)) (c : Char),
        authGet (updateAuth (updateAuth auth u1) u2) c
          = authGet (updateAuth (updateAuth auth u2) u1) c) ∧
    (∀ (auth upd : List (Char × Finset String)) (c : Char),
        authGetD (updateAuth auth upd) c = authGetD auth c ∪ updUnion upd c) ∧
    usersWithRankGEQ (updateAuth (updateAuth (updateAuth []
        [('#', {"o1", "o2"})]) [('*', {"b1", "b2"})]) [('@', {"m1", "m2"})]) '@'
      = Except.ok {"o1", "o2", "b1", "b2", "m1", "m2"} := by
  refine ⟨?_, ?_, authGetD_updateAuth, by decide⟩
  · intro auth upd c u hu
    rw [authGetD_updateAuth]
    exact Finset.mem_union_left _ hu
  · intro auth u1 u2 c
    by_cases h1 : updHasKey u1 c
    · by_cases h2 : updHasKey u2 c
      · simp only [authGet_updateAuth, authGetD_updateAuth, h1, h2, if_true]
        rw [Finset.union_right_comm]
      · have h2f : updHasKey u2 c = false := by simpa using h2
        simp [authGet_updateAuth, authGetD_updateAuth, h1, h2f,
          updUnion_of_not_hasKey h2f, Finset.union_empty]
    · by_cases h2 : updHasKey u2 c
      · have h1f : updHasKey u1 c = false := by simpa using h1
        simp [authGet_updateAuth, authGetD_updateAuth, h1f, h2,
          updUnion_of_not_hasKey h1f, Finset.union_empty]
      · have h1f : updHasKey u1 c = false := by simpa using h1
        have h2f : updHasKey u2 c = false := by simpa using h2
        simp [authGet_updateAuth, h1f, h2f]

/-- C4 witness: the monotonicity conjunct applied at a concrete state —
"a" is at rank '#' before a merge of {'#': {"b"}} and stays there. -/
theorem updateAuth_monotone_witness :
    "a" ∈ authGetD (updateAuth [('#', {"a"})] [('#', {"b"})]) '#' :=
  updateAuth_monotone_commutative_cumulative.1
    [('#', {"a"})] [('#', {"b"})] '#' "a" (by decide)

/-- C5: `usersWithRankGEQ` raises ValueError for every rank off the fixed
nine-symbol scale and returns normally for every rank on it. -/
theorem usersWithRankGEQ_scale_check :
    ∀ (auth : List (Char × Finset String)) (rank : Char),
      (rank ∉ ranksInOrder →
        usersWithRankGEQ auth rank = Except.error PyError.valueError) ∧
      (rank ∈ ranksInOrder → ∃ s, usersWithRankGEQ auth rank = Except.ok s) := by
  intro auth rank
  constructor
  · intro hmem
    rw [usersWithRankGEQ]
    have hnone : List.findIdx? (fun r => decide (r = rank)) ranksInOrder
        = none := by
      rw [List.findIdx?_eq_none_iff]
      intro x hx
      simp only [decide_eq_false_iff_not]
      intro hxr
      exact hmem (hxr ▸ hx)
    rw [hnone]
  · intro hmem
    rw [usersWithRankGEQ]
    rcases hsome : List.findIdx? (fun r => decide (r = rank)) ranksInOrder with
      _ | i
    · rw [List.findIdx?_eq_none_iff] at hsome
      have := hsome rank hmem
      simp at this
    · exact ⟨_, rfl⟩

/-- C5 witness: the theorem applied at '?' (off the scale, ValueError)
and at '@' (on the scale, normal return). -/
theorem usersWithRankGEQ_scale_check_witness :
    usersWithRankGEQ [] '?' = Except.error PyError.valueError ∧
      ∃ s, usersWithRankGEQ [] '@' = Except.ok s :=
  ⟨(usersWithRankGEQ_scale_check [] '?').1 (by decide),
   (usersWithRankGEQ_scale_check [] '@').2 (by decide)⟩

/-- `User` (lines 105-120): display name plus normalized ID. The
connection back-reference of the Python object is the surrounding `Conn`
of the embedding. -/
structure User where
  name : String
  id : String
deriving DecidableEq, Repr

/-- `User.__init__`: `self.name = name; self.id = toID(name)`. -/
def User.make (name : String) : User := ⟨name, toID name⟩

/-- `Room` (lines 30-59): normalized ID plus auth mapping. -/
structure Room where
  id : String
  auth : List (Char × Finset String)
deriving DecidableEq

/-- `Room.__init__`: `self.id = toID(name); self.auth = {}`. -/
def Room.make (name : String) : Room := ⟨toID name, []⟩

/-- A parsed message (`Message`, lines 152-310): the attributes set by
`Message.__init__`. The Python `room` attribute references a `Room`
object owned by the connection; the embedding stores its ID (at most one
tracked room per ID in every reachable state). -/
structure Msg where
  sender : Option User
  room : Option String
  body : Option String
  time : Option String
  type : Option String
  challstr : Option String
  senderName : Option String
  raw : String
deriving DecidableEq, Repr

/-- `Connection` state (lines 312-350): the tracked room list (a Python
set of `Room` objects, iterated linearly), the user→rooms membership
dict (insertion-ordered, keys unique per normalized ID in reachable
states), the logged-in user's own `User` object (`this`), the login
flag, whether a chat logger is configured, the events forwarded to that
logger, and the `lastSentTime` timestamp in milliseconds.
The `password` and `loglevel` attributes are consumed only by the
external HTTP login collaborator and by stdout logging, so they carry no
embedded behavior. -/
structure Conn where
  roomList : List Room
  userList : List (User × Finset String)
  thisUser : User
  isLoggedIn : Bool
  chatlogger : Bool
  logged : List Msg
  lastSentTime : ℚ
deriving DecidableEq

/-- `Connection.__init__` (lines 333-350): empty registries, `this` built
from the username, not logged in, `lastSentTime = 0`. -/
def Conn.make (username : String) (chatlogger : Bool) : Conn :=
  ⟨[], [], User.make username, false, chatlogger, [], 0⟩

/-- `Connection.getRoom` (lines 402-416): normalize the name, scan the
room list, return the first match or `None` (a duplicate only triggers a
log warning). -/
def getRoom (conn : Conn) (name : String) : Option Room :=
  match conn.roomList.filter (fun room => decide (room.id = toID name)) with
  | [] => none
  | r :: _ => some r

/-- The linear scan of `Connection.getUser`'s loop over `userList`. -/
def userListFind : List (User × Finset String) → String → Option User
  | [], _ => none
  | e :: rest, uid => if e.1.id = uid then some e.1 else userListFind rest uid

/-- `Connection.getUser` (lines 418-431): the session's own `User` when
the ID matches `this`, else the first dict key with that ID, else
`None`. -/
def getUser (conn : Conn) (userid : String) : Option User :=
  if userid = conn.thisUser.id then some conn.thisUser
  else userListFind conn.userList userid

/-- The linear scan of `Connection.getUserRooms` (lines 433-445): first
entry whose key has the user's ID. -/
def userListRooms : List (User × Finset String) → String → Option (Finset String)
  | [], _ => none
  | e :: rest, uid => if e.1.id = uid then some e.2 else userListRooms rest uid

/-- `Connection.getUserRooms`: room-ID set of the first matching entry,
or `None`. -/
def getUserRooms (conn : Conn) (user : User) : Option (Finset String) :=
  userListRooms conn.userList user.id

/-- The loop of `Connection.userJoinedRoom` (lines 457-460): add the room
ID to the set of the first entry whose key has the user's ID. -/
def addRoomFirst : List (User × Finset String) → String → String →
    List (User × Finset String)
  | [], _, _ => []
  | e :: rest, uid, rid =>
    if e.1.id = uid then (e.1, insert rid e.2) :: rest
    else e :: addRoomFirst rest uid rid

/-- In-place `set.remove` on the first entry whose key has the user's ID
(the mutation `userRooms.remove(room.id)` of line 473). -/
def eraseRoomFirst : List (User × Finset String) → String → String →
    List (User × Finset String)
  | [], _, _ => []
  | e :: rest, uid, rid =>
    if e.1.id = uid then (e.1, e.2.erase rid) :: rest
    else e :: eraseRoomFirst rest uid rid

/-- Python dict assignment `userList[key] = value`: rebind the existing
key or append a new entry. -/
def dictAssign : List (User × Finset String) → User → Finset String →
    List (User × Finset String)
  | [], k, v => [(k, v)]
  | e :: rest, k, v => if e.1 = k then (e.1, v) :: rest else e :: dictAssign rest k v

/-- `Connection.userJoinedRoom` (lines 447-460): if `getUserRooms` is not
a set, bind the user to `{room.id}` (dict append); otherwise add the
room ID to the first entry with the user's ID. -/
def userJoinedRoom (conn : Conn) (user : User) (room : Room) : Conn :=
  match userListRooms conn.userList user.id with
  | none => {conn with userList := conn.userList ++ [(user, {room.id})]}
  | some _ => {conn with userList := addRoomFirst conn.userList user.id room.id}

/-- `Connection.userLeftRoom` (lines 462-474): no-op when the index has
no set for the user or does not record the room; otherwise remove the
room ID in place and rebind `userList[getUser(user.id)]` to the same
set. The inner `none` branch is unreachable (a matching entry exists
whenever `userListRooms` found one). -/
def userLeftRoom (conn : Conn) (user : User) (room : Room) : Conn :=
  match userListRooms conn.userList user.id with
  | none => conn
  | some s =>
    if room.id ∈ s then
      let ul := eraseRoomFirst conn.userList user.id room.id
      match getUser {conn with userList := ul} user.id with
      | some k => {conn with userList := dictAssign ul k (s.erase room.id)}
      | none => {conn with userList := ul}
    else conn

/-- `userJoinedRoom` as called with a possibly-`None` room: both branches
of the Python method dereference `room.id`, an AttributeError when the
room is `None`. -/
def userJoinedRoomO (conn : Conn) (user : User) (room : Option Room) :
    Except PyError Conn :=
  match room with
  | none => Except.error (PyError.attributeError "id")
  | some r => Except.ok (userJoinedRoom conn user r)

/-- `userLeftRoom` as called with a possibly-`None` room: the guard
`not isinstance(userRooms, set) or room.id not in userRooms`
short-circuits, so a `None` room raises only when the user has a
membership set. -/
def userLeftRoomO (conn : Conn) (user : User) (room : Option Room) :
    Except PyError Conn :=
  match userListRooms conn.userList user.id with
  | none => Except.ok conn
  | some _ =>
    match room with
    | none => Except.error (PyError.attributeError "id")
    | some r => Except.ok (userLeftRoom conn user r)

theorem userListRooms_append_self (ul : List (User × Finset String))
    (u : User) (v : Finset String) (h : userListRooms ul u.id = none) :
    userListRooms (ul ++ [(u, v)]) u.id = some v := by
  induction ul with
  | nil => simp [userListRooms]
  | cons e rest ih =>
    by_cases he : e.1.id = u.id
    · rw [userListRooms, if_pos he] at h
      exact absurd h (by simp)
    · rw [userListRooms, if_neg he] at h
      rw [List.cons_append, userListRooms, if_neg he]
      exact ih h

theorem userListRooms_addRoomFirst (ul : List (User × Finset String))
    (uid rid : String) :
    userListRooms (addRoomFirst ul uid rid) uid
      = (userListRooms ul uid).map (fun s => insert rid s) := by
  induction ul with
  | nil => simp [userListRooms, addRoomFirst]
  | cons e rest ih =>
    by_cases he : e.1.id = uid
    · simp [addRoomFirst, userListRooms, he]
    · simp [addRoomFirst, userListRooms, he, ih]

theorem userListRooms_eraseRoomFirst (ul : List (User × Finset String))
    (uid rid : String) :
    userListRooms (eraseRoomFirst ul uid rid) uid
      = (userListRooms ul uid).map (fun s => s.erase rid) := by
  induction ul with
  | nil => simp [userListRooms, eraseRoomFirst]
  | cons e rest ih =>
    by_cases he : e.1.id = uid
    · simp [eraseRoomFirst, userListRooms, he]
    · simp [eraseRoomFirst, userListRooms, he, ih]

theorem userListRooms_dictAssign (ul : List (User × Finset String))
    (k : User) (v : Finset String) (uid : String)
    (h : userListRooms ul uid = some v) :
    userListRooms (dictAssign ul k v) uid = some v := by
  induction ul with
  | nil => simp [userListRooms] at h
  | cons e rest ih =>
    by_cases hek : e.1 = k
    · by_cases he : e.1.id = uid
      · simp [dictAssign, userListRooms, hek, hek ▸ he]
      · rw [userListRooms, if_neg he] at h
        rw [dictAssign, if_pos hek, userListRooms, if_neg (hek ▸ he)]
        exact h
    · by_cases he : e.1.id = uid
      · rw [userListRooms, if_pos he] at h
        rw [dictAssign, if_neg hek, userListRooms, if_pos he]
        exact h
      · rw [userListRooms, if_neg he] at h
        rw [dictAssign, if_neg hek, userListRooms, if_neg he]
        exact ih h

theorem userListRooms_userJoinedRoom (conn : Conn) (u : User) (r : Room) :
    userListRooms (userJoinedRoom conn u r).userList u.id
      = some (match userListRooms conn.userList u.id with
              | none => {r.id}
              | some s => insert r.id s) := by
  rcases h : userListRooms conn.userList u.id with _ | s
  · rw [userJoinedRoom, h]
    exact userListRooms_append_self _ _ _ h
  · rw [userJoinedRoom, h]
    have := userListRooms_addRoomFirst conn.userList u.id r.id
    rw [h] at this
    exact this

theorem userListRooms_userLeftRoom (conn : Conn) (u : User) (r : Room)
    (s : Finset String) (h : userListRooms conn.userList u.id = some s)
    (hin : r.id ∈ s) :
    userListRooms (userLeftRoom conn u r).userList u.id
      = some (s.erase r.id) := by
  have herase : userListRooms
      (eraseRoomFirst conn.userList u.id r.id) u.id = some (s.erase r.id) := by
    have h2 := userListRooms_eraseRoomFirst conn.userList u.id r.id
    rw [h] at h2
    exact h2
  simp only [userLeftRoom, h, if_pos hin]
  rcases hg : (getUser { conn with userList := eraseRoomFirst conn.userList u.id r.id } u.id) with _ | k
  · simp only [hg]
    exact herase
  · simp only [hg]
    exact userListRooms_dictAssign _ _ _ _ herase

/-- C7: decoding a join for a tracked room then a leave for the same room
leaves the user's membership set without that room's ID, and a leave for
a room the membership index does not record the user as occupying is a
no-op that raises no error. -/
theorem join_then_leave_membership :
    ∀ (conn : Conn) (user : User) (room : Room),
      room.id ∉ (getUserRooms
          (userLeftRoom (userJoinedRoom conn user room) user room)
          user).getD ∅ ∧
      (¬(∃ s, userListRooms conn.userList user.id = some s ∧ room.id ∈ s) →
        userLeftRoomO conn user (some room) = Except.ok conn) := by
  intro conn user room
  constructor
  · have hjoin := userListRooms_userJoinedRoom conn user room
    rcases h : userListRooms conn.userList user.id with _ | s
    · rw [h] at hjoin
      have hleave := userListRooms_userLeftRoom _ user room _ hjoin
        (Finset.mem_singleton_self room.id)
      rw [getUserRooms, hleave, Option.getD_some]
      exact Finset.not_mem_erase room.id _
    · rw [h] at hjoin
      have hleave := userListRooms_userLeftRoom _ user room _ hjoin
        (Finset.mem_insert_self room.id s)
      rw [getUserRooms, hleave, Option.getD_some]
      exact Finset.not_mem_erase room.id _
  · intro hrec
    rcases h : userListRooms conn.userList user.id with _ | s
    · rw [userLeftRoomO, h]
    · have hnin : room.id ∉ s := fun hin => hrec ⟨s, h, hin⟩
      simp only [userLeftRoomO, userLeftRoom, h, if_neg hnin]

/-- C7 witness: the theorem applied at a concrete session — one user, one
tracked room; after join-then-leave the membership set lacks "testroom",
and the leave on the initially empty index is an error-free no-op. -/
theorem join_then_leave_membership_witness :
    ("testroom" : String) ∉ (getUserRooms
        (userLeftRoom
          (userJoinedRoom (Conn.make "" false) (User.make "Ann")
            (Room.make "testroom"))
          (User.make "Ann") (Room.make "testroom"))
        (User.make "Ann")).getD ∅ ∧
      userLeftRoomO (Conn.make "" false) (User.make "Ann")
        (some (Room.make "testroom")) = Except.ok (Conn.make "" false) :=
  ⟨(join_then_leave_membership (Conn.make "" false) (User.make "Ann")
      (Room.make "testroom")).1,
   (join_then_leave_membership (Conn.make "" false) (User.make "Ann")
      (Room.make "testroom")).2 (by decide)⟩

theorem userListFind_none (ul : List (User × Finset String)) (uid : String)
    (h : ∀ e ∈ ul, e.1.id ≠ uid) : userListFind ul uid = none := by
  induction ul with
  | nil => rfl
  | cons e rest ih =>
    rw [userListFind, if_neg (h e (List.mem_cons_self e rest))]
    exact ih (fun x hx => h x (List.mem_cons_of_mem e hx))

/-- C10: `Connection.getUser` on the logged-in user's own ID always
returns the session's own `this` object — which `Connection.__init__`
never inserts into `userList` — and on any other ID absent from
`userList` it returns `None`. -/
theorem getUser_this_and_miss :
    (∀ conn : Conn, getUser conn conn.thisUser.id = some conn.thisUser) ∧
    (∀ (conn : Conn) (uid : String), uid ≠ conn.thisUser.id →
      (∀ e ∈ conn.userList, e.1.id ≠ uid) → getUser conn uid = none) ∧
    (∀ (username : String) (cl : Bool),
      (Conn.make username cl).userList = [] ∧
        getUser (Conn.make username cl) (toID username)
          = some (User.make username)) := by
  refine ⟨?_, ?_, ?_⟩
  · intro conn
    rw [getUser, if_pos rfl]
  · intro conn uid hne hnotin
    rw [getUser, if_neg hne]
    exact userListFind_none _ _ hnotin
  · intro username cl
    exact ⟨rfl, by simp [getUser, Conn.make, User.make]⟩

/-- C10 witness: the theorem applied at a concrete session whose user
list is empty — the own ID resolves to `this`, an unknown ID to `None`. -/
theorem getUser_this_and_miss_witness :
    getUser (Conn.make "Annika" false) "annika"
        = some (User.make "Annika") ∧
      getUser (Conn.make "Annika" false) "someoneelse" = none :=
  ⟨(getUser_this_and_miss.2.2 "Annika" false).2,
   getUser_this_and_miss.2.1 (Conn.make "Annika" false) "someoneelse"
     (by decide) (by simp [Conn.make])⟩

/-- Python `str.split(sep)` with a one-character separator: splitting the
empty string yields `[""]`, and every separator occurrence produces a
field. -/
def pySplitAux (sep : Char) : List Char → List Char → List (List Char)
  | [], acc => [acc.reverse]
  | c :: rest, acc =>
    if c = sep then acc.reverse :: pySplitAux sep rest []
    else pySplitAux sep rest (c :: acc)

/-- `raw.split("|")` and friends. -/
def pySplit (s : String) (sep : Char) : List String :=
  (pySplitAux sep s.toList []).map String.mk

def pyJoinAux (sep : Char) : List (List Char) → List Char
  | [] => []
  | [x] => x
  | x :: y :: rest => x ++ sep :: pyJoinAux sep (y :: rest)

/-- Python `sep.join(fields)` with a one-character separator. -/
def pyJoin (sep : Char) (l : List String) : String :=
  String.mk (pyJoinAux sep (l.map String.toList))

def stripEnds (p : Char → Bool) (l : List Char) : List Char :=
  ((l.dropWhile p).reverse.dropWhile p).reverse

/-- Python `s.strip(c)` for a single strip character: remove every
leading and trailing occurrence. -/
def pyStripChar (s : String) (c : Char) : String :=
  String.mk (stripEnds (fun x => x == c) s.toList)

/-- The whitespace characters removed by Python `str.strip()` (the ASCII
ones; the inputs the source strips are ASCII). -/
def isPySpace (c : Char) : Bool :=
  c == ' ' || c == '\t' || c == '\n' || c == '\r' || c == '\x0b' || c == '\x0c'

/-- Python `s.strip()`. -/
def pyStripWS (s : String) : String :=
  String.mk (stripEnds isPySpace s.toList)

/-- Mutating the `Room` object that `getRoom` returned (the first list
entry with the ID): apply `updateAuth` to its auth dict in place. -/
def updateFirstRoom : List Room → String → List (Char × Finset String) →
    List Room
  | [], _, _ => []
  | r :: rest, rid, upd =>
    if r.id = rid then { r with auth := updateAuth r.auth upd } :: rest
    else r :: updateFirstRoom rest rid upd

/-- The attributes a `Message` carries right after the `None`-defaults,
`self.raw = raw` and `self.type = split[1]` of `Message.__init__`. -/
def Msg.start (raw ty : String) : Msg :=
  ⟨none, none, none, none, some ty, none, none, raw⟩

/-- `Message._setRoom` (lines 287-294): field 0 stripped of `>` and
newline; empty means `lobby`; resolved through `getRoom` (which can
yield `None`). -/
def setRoomOf (conn : Conn) (split : List String) :
    Except PyError (Option Room) :=
  match pyGet split 0 with
  | Except.error e => Except.error e
  | Except.ok f0 =>
    let roomid := pyStripChar (pyStripChar f0 '>') '\n'
    Except.ok (getRoom conn (if roomid = "" then "lobby" else roomid))

/-- The sender resolution of `Message._setSender` (lines 277-285): look
the normalized name up, else build a fresh `User` from the raw name. -/
def senderOf (conn : Conn) (sname : String) : User :=
  match getUser conn (toID sname) with
  | some u => u
  | none => User.make sname

/-- `Message._handleChat` (lines 212-236): resolve the room, consume the
timestamp field for `c:`, strip the sender field, merge a leading rank
symbol into the room's auth (an AttributeError when the room is `None`),
resolve the sender, and rejoin the remaining fields as the body. -/
def handleChat (conn : Conn) (split : List String) (hasTimestamp : Bool)
    (m : Msg) : Except PyError (Msg × Conn) :=
  match setRoomOf conn split with
  | Except.error e => Except.error e
  | Except.ok room =>
    let m1 := { m with type := some "chat", room := room.map Room.id }
    match (if hasTimestamp then
        (match pyGet split 2 with
         | Except.error e => Except.error e
         | Except.ok t => Except.ok ({ m1 with time := some t }, 3))
      else Except.ok (m1, 2) : Except PyError (Msg × Nat)) with
    | Except.error e => Except.error e
    | Except.ok (m2, cs) =>
      match pyGet split cs with
      | Except.error e => Except.error e
      | Except.ok username =>
        let userid := pyStripWS username
        match pyGet userid.toList 0 with
        | Except.error e => Except.error e
        | Except.ok c0 =>
          match (if c0 ∈ ranksInOrder then
              (match room with
               | none => Except.error (PyError.attributeError "updateAuth")
               | some r =>
                 let upd := [(c0, ({toID (String.mk (userid.toList.drop 1))} : Finset String))]
                 Except.ok { conn with roomList := updateFirstRoom conn.roomList r.id upd })
            else Except.ok conn : Except PyError Conn) with
          | Except.error e => Except.error e
          | Except.ok conn2 =>
            let sender := senderOf conn2 username
            let body := pyStripChar (pyJoin '|' (split.drop (cs + 1))) '\n'
            Except.ok ({ m2 with senderName := some username, sender := some sender, body := some body }, conn2)

/-- `Message._handleJoinLeave` (lines 238-249): resolve room and sender,
then record the membership change through the connection. -/
def handleJoinLeave (conn : Conn) (split : List String) (isJoin : Bool)
    (m : Msg) : Except PyError (Msg × Conn) :=
  match setRoomOf conn split with
  | Except.error e => Except.error e
  | Except.ok room =>
    let tyStr : String := if isJoin then "join" else "leave"
    let m1 := { m with type := some tyStr, room := room.map Room.id }
    match pyGet split 2 with
    | Except.error e => Except.error e
    | Except.ok sname =>
      let sender := senderOf conn sname
      let m2 := { m1 with senderName := some sname, sender := some sender }
      match (if isJoin then userJoinedRoomO conn sender room
          else userLeftRoomO conn sender room) with
      | Except.error e => Except.error e
      | Except.ok conn2 => Except.ok (m2, conn2)

/-- `Message._handlePM` (lines 251-258): fields 4 onward rejoined as the
body, sender from field 2, no room. -/
def handlePM (conn : Conn) (split : List String) (m : Msg) :
    Except PyError (Msg × Conn) :=
  let pmBody := pyStripChar (pyJoin '|' (split.drop 4)) '\n'
  let m1 := { m with body := some pmBody }
  match pyGet split 2 with
  | Except.error e => Except.error e
  | Except.ok sname =>
    let sender := senderOf conn sname
    Except.ok ({ m1 with senderName := some sname, sender := some sender }, conn)

/-- The decoded shape of a `roominfo` JSON payload: optional room ID,
optional auth mapping (rank → names), optional user list. -/
structure RoomData where
  id : Option String
  auth : Option (List (Char × Finset String))
  users : Option (List String)
deriving DecidableEq

/-- The user loop of the `roominfo` handler (lines 272-275): resolve each
listed name (`User(toID(user), ...)` when unknown) and record it as
joined into the room. -/
def joinRoomUsers (r : Room) : List String → Conn → Conn
  | [], conn => conn
  | uname :: rest, conn =>
    let uo := match getUser conn (toID uname) with
      | some u => u
      | none => User.make (toID uname)
    joinRoomUsers r rest (userJoinedRoom conn uo r)

/-- The `roominfo` branch of `Message._handleQuery` (lines 267-275) after
`json.loads`: resolve the room via `getRoom` (`None` when the ID is
missing or unknown — nothing is created), merge the auth payload into
that room, and mark each listed user (resolved or freshly created from
the normalized name) as joined. -/
def handleRoomInfo (conn : Conn) (rd : RoomData) : Conn :=
  let room := match rd.id with
    | some rid => getRoom conn rid
    | none => none
  match room with
  | none => conn
  | some r =>
    let conn1 := match rd.auth with
      | some a => { conn with roomList := updateFirstRoom conn.roomList r.id a }
      | none => conn
    match rd.users with
    | none => conn1
    | some us => joinRoomUsers r us conn1

/-- `Message._handleQuery` (lines 260-275): field 2 is the query kind;
`roominfo` parses field 3 as JSON — `json.loads` is external library
code, passed in as `jp` — and applies `handleRoomInfo`. -/
def handleQuery (jp : String → Except PyError RoomData) (conn : Conn)
    (split : List String) (m : Msg) : Except PyError (Msg × Conn) :=
  match pyGet split 2 with
  | Except.error e => Except.error e
  | Except.ok query =>
    if query = "roominfo" then
      match pyGet split 3 with
      | Except.error e => Except.error e
      | Except.ok payload =>
        match jp payload with
        | Except.error e => Except.error e
        | Except.ok rd => Except.ok (m, handleRoomInfo conn rd)
    else Except.ok (m, conn)

/-- The dispatch of `Message.__init__` (lines 170-192) on a raw string:
split on `|`, read the type tag from field 1 (an IndexError when the
line has no `|`), then branch on the tag; an unknown tag only logs a
debug line. -/
def parseLine (jp : String → Except PyError RoomData) (raw : String)
    (conn : Conn) : Except PyError (Msg × Conn) :=
  let split := pySplit raw '|'
  match pyGet split 1 with
  | Except.error e => Except.error e
  | Except.ok ty =>
    let m := Msg.start raw ty
    if ty = "challstr" then
      Except.ok ({ m with challstr := some (pyJoin '|' (split.drop 2)) }, conn)
    else if ty = "c:" ∨ ty = "c" ∨ ty = "chat" then
      handleChat conn split (ty = "c:") m
    else if ty = "J" ∨ ty = "j" ∨ ty = "join" then
      handleJoinLeave conn split true m
    else if ty = "L" ∨ ty = "l" ∨ ty = "leave" then
      handleJoinLeave conn split false m
    else if ty = "pm" then
      handlePM conn split m
    else if ty = "queryresponse" then
      handleQuery jp conn split m
    else if ty = "init" then
      Except.ok (m, conn)
    else
      Except.ok (m, conn)

/-- The entry of `Message.__init__` on its dynamic `raw` argument. The
first operation is `self.raw.split("|")`; when `raw` is a `Message`
object rather than a string — as in the final line of
`Connection.handleMessage` — the attribute lookup `.split` raises
AttributeError before any parsing happens. -/
def MessageInit (jp : String → Except PyError RoomData)
    (arg : String ⊕ Msg) (conn : Conn) : Except PyError (Msg × Conn) :=
  match arg with
  | Sum.inl raw => parseLine jp raw conn
  | Sum.inr _ => Except.error (PyError.attributeError "split")

/-- The session effect of `Connection.login` (lines 363-375): the HTTP
exchange and the `/trn` send are external; on the session the method
sets `isLoggedIn = True` (the timestamp side effect of the inner `send`
belongs to the external clock and is not tracked). -/
def loginEffect (conn : Conn) : Conn := { conn with isLoggedIn := true }

/-- `Connection.handleMessage` (lines 505-523): build a `Message` from
the raw line, forward it to the chat logger when one is configured, log
in when the message carries a (non-empty, hence truthy) challstr, and
finally evaluate `Message(message, self)` — the constructor applied to
the `Message` object itself. -/
def handleMessage (jp : String → Except PyError RoomData) (raw : String)
    (conn : Conn) : Except PyError (Msg × Conn) :=
  match MessageInit jp (Sum.inl raw) conn with
  | Except.error e => Except.error e
  | Except.ok (m, conn1) =>
    let conn2 := if conn1.chatlogger
      then { conn1 with logged := conn1.logged ++ [m] } else conn1
    let conn3 := match m.challstr with
      | some c => if c = "" then conn2 else loginEffect conn2
      | none => conn2
    MessageInit jp (Sum.inr m) conn3

/-- The fixed throttle of `Connection.send` (line 396), milliseconds. -/
def throttleWindow : ℚ := 600

/-- `Connection.send` (lines 390-400) with an explicit clock: `now` is
`time.time() * 1000` on entry; when less than the window has elapsed
since `lastSentTime` the call sleeps for the deficit — `time.sleep`
waits at least the requested duration, `ov ≥ 0` being the overshoot —
then transmits; the transmit timestamp is recorded as the new
`lastSentTime`. Returns (transmit timestamp, updated session). -/
def send (conn : Conn) (now ov : ℚ) : ℚ × Conn :=
  let timeDiff := now - conn.lastSentTime - throttleWindow
  let t := if timeDiff < 0 then now - timeDiff + ov else now
  (t, { conn with lastSentTime := t })

theorem send_records (conn : Conn) (now ov : ℚ) :
    (send conn now ov).2.lastSentTime = (send conn now ov).1 := rfl

theorem send_transmit_ge (conn : Conn) (now ov : ℚ) (hov : 0 ≤ ov) :
    conn.lastSentTime + throttleWindow ≤ (send conn now ov).1 := by
  simp only [send]
  split_ifs with h
  · linarith
  · linarith

theorem send_sleep_exact (conn : Conn) (now ov : ℚ)
    (h : now - conn.lastSentTime < throttleWindow) :
    (send conn now ov).1 = conn.lastSentTime + throttleWindow + ov := by
  simp only [send]
  rw [if_pos (by linarith)]
  ring

/-- C9: for two consecutive `send` calls, the first call records its
transmit timestamp as `lastSentTime`; the second transmit occurs no
sooner than the throttle window (600 ms) after that recorded timestamp,
and when less than the window has elapsed the call sleeps exactly the
remaining deficit (up to the sleep overshoot) before transmitting. -/
theorem send_throttle :
    ∀ (conn : Conn) (now1 ov1 now2 ov2 : ℚ), 0 ≤ ov1 → 0 ≤ ov2 →
      (send conn now1 ov1).2.lastSentTime = (send conn now1 ov1).1 ∧
      (send conn now1 ov1).1 + throttleWindow
        ≤ (send (send conn now1 ov1).2 now2 ov2).1 ∧
      (now2 - (send conn now1 ov1).2.lastSentTime < throttleWindow →
        (send (send conn now1 ov1).2 now2 ov2).1
          = (send conn now1 ov1).2.lastSentTime + throttleWindow + ov2) := by
  intro conn now1 ov1 now2 ov2 hov1 hov2
  refine ⟨send_records conn now1 ov1, ?_, ?_⟩
  · have hge := send_transmit_ge (send conn now1 ov1).2 now2 ov2 hov2
    rw [send_records conn now1 ov1] at hge
    exact hge
  · intro hlt
    exact send_sleep_exact (send conn now1 ov1).2 now2 ov2 hlt

/-- C9 witness: the theorem applied at a concrete session — a fresh
session sends at time 1000 ms, then immediately again at 1000 ms; the
second transmit is pushed to 1600 ms. -/
theorem send_throttle_witness :
    (send (Conn.make "" false) 1000 0).2.lastSentTime
        = (send (Conn.make "" false) 1000 0).1 ∧
      (send (Conn.make "" false) 1000 0).1 + throttleWindow
        ≤ (send (send (Conn.make "" false) 1000 0).2 1000 0).1 ∧
      (1000 - (send (Conn.make "" false) 1000 0).2.lastSentTime < throttleWindow →
        (send (send (Conn.make "" false) 1000 0).2 1000 0).1
          = (send (Conn.make "" false) 1000 0).2.lastSentTime + throttleWindow + 0) :=
  send_throttle (Conn.make "" false) 1000 0 1000 0 (by norm_num) (by norm_num)

/-- C1 (the claim describes the intended behavior; the code cannot
deliver it): `Connection.handleMessage` never returns the decoded event
— its final `return Message(message, self)` re-runs the constructor on
the `Message` object, and the attribute lookup `message.split` raises
AttributeError on every input; concretely, even the benign line "|init"
produces that error instead of an event. -/
theorem handleMessage_always_raises :
    (∀ (jp : String → Except PyError RoomData) (raw : String) (conn : Conn),
        ∃ e, handleMessage jp raw conn = Except.error e) ∧
      handleMessage (fun _ => Except.error PyError.valueError) "|init"
          (Conn.make "" false)
        = Except.error (PyError.attributeError "split") := by
  constructor
  · intro jp raw conn
    rcases h : MessageInit jp (Sum.inl raw) conn with e | mc
    · exact ⟨e, by simp [handleMessage, h]⟩
    · obtain ⟨m, conn1⟩ := mc
      refine ⟨PyError.attributeError "split", ?_⟩
      simp only [handleMessage, h]
      rfl
  · rfl

/-- C2 counterexample: a raw line containing no `|` at all makes
`Message.__init__` raise IndexError at `split[1]`, so a malformed line
does abort decoding. -/
theorem decode_short_line_raises :
    MessageInit (fun _ => Except.error PyError.valueError)
        (Sum.inl "nopipes") (Conn.make "" false)
      = Except.error PyError.indexError := rfl

/-- C2 (amended): a line whose tag field (field 1) exists but is not one
of the recognized tags decodes to a diagnostic-only event — the tag is
kept as the type, the session state is untouched, and no exception is
raised; a line with fewer than two pipe-delimited fields, however,
raises IndexError. -/
theorem unrecognized_tag_never_fatal :
    (∀ (jp : String → Except PyError RoomData) (raw : String) (conn : Conn)
        (ty : String), (pySplit raw '|')[1]? = some ty →
        ty ∉ (["challstr", "c:", "c", "chat", "J", "j", "join", "L", "l",
          "leave", "pm", "queryresponse", "init"] : List String) →
        MessageInit jp (Sum.inl raw) conn = Except.ok (Msg.start raw ty, conn)) ∧
    (∀ (jp : String → Except PyError RoomData) (raw : String) (conn : Conn),
        (pySplit raw '|')[1]? = none →
        MessageInit jp (Sum.inl raw) conn = Except.error PyError.indexError) := by
  constructor
  · intro jp raw conn ty h hn
    simp only [List.mem_cons, List.not_mem_nil, or_false, not_or] at hn
    obtain ⟨h1, h2, h3, h4, h5, h6, h7, h8, h9, h10, h11, h12, h13⟩ := hn
    simp [MessageInit, parseLine, pyGet, h, h1, h2, h3, h4, h5, h6, h7,
      h8, h9, h10, h11, h12, h13]
  · intro jp raw conn h
    simp [MessageInit, parseLine, pyGet, h]

/-- C2 witness: the amended theorem applied at the concrete line
"|weird|x" — tag "weird" is unrecognized; the decode returns the
diagnostic event and leaves the session untouched. -/
theorem unrecognized_tag_never_fatal_witness :
    MessageInit (fun _ => Except.error PyError.valueError)
        (Sum.inl "|weird|x") (Conn.make "" false)
      = Except.ok (Msg.start "|weird|x" "weird", Conn.make "" false) :=
  unrecognized_tag_never_fatal.1 (fun _ => Except.error PyError.valueError)
    "|weird|x" (Conn.make "" false) "weird" rfl (by decide)

/-- The session of the chat-decoding scenario: a fresh connection that
tracks the room "lobby" (as the test dummies do). -/
def conn8 : Conn :=
  { Conn.make "" false with roomList := [Room.make "lobby"] }

/-- C8: decoding the raw line with an empty field 0, tag `c`, a
`#`-prefixed sender and a body containing `|` yields a chat event in
"lobby" whose sender identity is "annika", whose body is everything
after the sender field rejoined with `|`, and merges rank `#` for
"annika" into the lobby's authority. -/
theorem chat_line_decodes :
    ∃ (m : Msg) (conn2 : Conn),
      parseLine (fun _ => Except.error PyError.valueError)
          "|c|#Ann/ika ^_^|Hi|Isn\x27t it cool?" conn8
        = Except.ok (m, conn2) ∧
      m.type = some "chat" ∧ m.room = some "lobby" ∧
      m.senderName = some "#Ann/ika ^_^" ∧
      m.sender.map User.id = some "annika" ∧
      m.body = some "Hi|Isn\x27t it cool?" ∧
      authGet ((getRoom conn2 "lobby").getD (Room.make "")).auth '#'
        = some {"annika"} := by
  refine ⟨_, _, rfl, ?_, ?_, ?_, ?_, ?_, ?_⟩ <;> decide

theorem roomIds_updateFirstRoom (rl : List Room) (rid : String)
    (upd : List (Char × Finset String)) :
    (updateFirstRoom rl rid upd).map Room.id = rl.map Room.id := by
  induction rl with
  | nil => rfl
  | cons r rest ih =>
    by_cases h : r.id = rid
    · simp [updateFirstRoom, h]
    · simp [updateFirstRoom, h, ih]

theorem roomList_userJoinedRoom (conn : Conn) (u : User) (r : Room) :
    (userJoinedRoom conn u r).roomList = conn.roomList := by
  cases hc : userListRooms conn.userList u.id <;> simp [userJoinedRoom, hc]

theorem roomList_userLeftRoom (conn : Conn) (u : User) (r : Room) :
    (userLeftRoom conn u r).roomList = conn.roomList := by
  cases hc : userListRooms conn.userList u.id with
  | none => simp [userLeftRoom, hc]
  | some s =>
    by_cases hin : r.id ∈ s
    · simp only [userLeftRoom, hc, if_pos hin]
      rcases hg : (getUser { conn with userList := eraseRoomFirst conn.userList u.id r.id } u.id) with _ | k
      · simp [hg]
      · simp [hg]
    · simp [userLeftRoom, hc, hin]

theorem roomList_userJoinedRoomO (conn : Conn) (u : User) (ro : Option Room)
    (c2 : Conn) (h : userJoinedRoomO conn u ro = Except.ok c2) :
    c2.roomList = conn.roomList := by
  rcases ro with _ | r
  · exact Except.noConfusion h
  · injection h with h2
    subst h2
    exact roomList_userJoinedRoom conn u r

theorem roomList_userLeftRoomO (conn : Conn) (u : User) (ro : Option Room)
    (c2 : Conn) (h : userLeftRoomO conn u ro = Except.ok c2) :
    c2.roomList = conn.roomList := by
  rw [userLeftRoomO.eq_def] at h
  split at h
  · injection h with h2
    subst h2
    rfl
  · split at h
    · exact Except.noConfusion h
    · injection h with h2
      subst h2
      exact roomList_userLeftRoom conn u _

theorem roomList_joinRoomUsers (r : Room) (us : List String) (conn : Conn) :
    (joinRoomUsers r us conn).roomList = conn.roomList := by
  induction us generalizing conn with
  | nil => rfl
  | cons uname rest ih =>
    rw [joinRoomUsers, ih]
    exact roomList_userJoinedRoom conn _ r

theorem roomIds_handleRoomInfo (conn : Conn) (rd : RoomData) :
    (handleRoomInfo conn rd).roomList.map Room.id
      = conn.roomList.map Room.id := by
  obtain ⟨oid, oauth, ousers⟩ := rd
  rw [handleRoomInfo]
  rcases oid with _ | rid
  · rfl
  · rcases hr : getRoom conn rid with _ | r
    · simp [hr]
    · simp only [hr]
      rcases oauth with _ | a <;> rcases ousers with _ | us <;>
        simp [roomList_joinRoomUsers, roomIds_updateFirstRoom]

/-- The session a decode result carries, or the starting session when the
decode raised. -/
def connOf (e : Except PyError (Msg × Conn)) (dflt : Conn) : Conn :=
  match e with
  | Except.ok x => x.2
  | Except.error _ => dflt

theorem roomIds_handleChat (conn : Conn) (split : List String) (ht : Bool)
    (m : Msg) :
    (connOf (handleChat conn split ht m) conn).roomList.map Room.id
      = conn.roomList.map Room.id := by
  rcases hs : setRoomOf conn split with e | room
  · simp [handleChat, hs, connOf]
  · cases ht with
    | true =>
      rcases ht2 : pyGet split 2 with e | t
      · simp [handleChat, hs, ht2, connOf]
      · rcases hu : pyGet split 3 with e | username
        · simp [handleChat, hs, ht2, hu, connOf]
        · rcases hc0 : pyGet (pyStripWS username).data 0 with e | c0
          · simp [handleChat, hs, ht2, hu, hc0, connOf]
          · by_cases hrank : c0 ∈ ranksInOrder
            · rcases room with _ | r
              · simp [handleChat, hs, ht2, hu, hc0, hrank, connOf]
              · simp [handleChat, hs, ht2, hu, hc0, hrank, connOf,
                  roomIds_updateFirstRoom]
            · simp [handleChat, hs, ht2, hu, hc0, hrank, connOf]
    | false =>
      rcases hu : pyGet split 2 with e | username
      · simp [handleChat, hs, hu, connOf]
      · rcases hc0 : pyGet (pyStripWS username).data 0 with e | c0
        · simp [handleChat, hs, hu, hc0, connOf]
        · by_cases hrank : c0 ∈ ranksInOrder
          · rcases room with _ | r
            · simp [handleChat, hs, hu, hc0, hrank, connOf]
            · simp [handleChat, hs, hu, hc0, hrank, connOf,
                roomIds_updateFirstRoom]
          · simp [handleChat, hs, hu, hc0, hrank, connOf]

theorem roomIds_handleJoinLeave (conn : Conn) (split : List String)
    (isJoin : Bool) (m : Msg) :
    (connOf (handleJoinLeave conn split isJoin m) conn).roomList.map Room.id
      = conn.roomList.map Room.id := by
  rcases hs : setRoomOf conn split with e | room
  · simp [handleJoinLeave, hs, connOf]
  · rcases hn : pyGet split 2 with e | sname
    · simp [handleJoinLeave, hs, hn, connOf]
    · cases isJoin with
      | true =>
        rcases hj : userJoinedRoomO conn (senderOf conn sname) room with e | c2
        · simp [handleJoinLeave, hs, hn, hj, connOf]
        · simp [handleJoinLeave, hs, hn, hj, connOf,
            roomList_userJoinedRoomO _ _ _ _ hj]
      | false =>
        rcases hj : userLeftRoomO conn (senderOf conn sname) room with e | c2
        · simp [handleJoinLeave, hs, hn, hj, connOf]
        · simp [handleJoinLeave, hs, hn, hj, connOf,
            roomList_userLeftRoomO _ _ _ _ hj]

theorem roomIds_handlePM (conn : Conn) (split : List String) (m : Msg) :
    (connOf (handlePM conn split m) conn).roomList.map Room.id
      = conn.roomList.map Room.id := by
  rw [handlePM]
  repeat' split
  all_goals simp [connOf]

theorem roomIds_handleQuery (jp : String → Except PyError RoomData)
    (conn : Conn) (split : List String) (m : Msg) :
    (connOf (handleQuery jp conn split m) conn).roomList.map Room.id
      = conn.roomList.map Room.id := by
  rw [handleQuery]
  repeat' split
  all_goals simp [connOf, roomIds_handleRoomInfo]

theorem roomIds_parseLineAux (jp : String → Except PyError RoomData)
    (raw : String) (conn : Conn) :
    (connOf (parseLine jp raw conn) conn).roomList.map Room.id
      = conn.roomList.map Room.id := by
  rw [parseLine]
  split
  · rfl
  next ty heqty =>
    split
    · simp [connOf]
    · split
      · exact roomIds_handleChat conn _ _ _
      · split
        · exact roomIds_handleJoinLeave conn _ _ _
        · split
          · exact roomIds_handleJoinLeave conn _ _ _
          · split
            · exact roomIds_handlePM conn _ _
            · split
              · exact roomIds_handleQuery jp conn _ _
              · split
                · simp [connOf]
                · simp [connOf]

theorem roomIds_parseLine (jp : String → Except PyError RoomData)
    (raw : String) (conn : Conn) (m2 : Msg) (conn2 : Conn)
    (h : parseLine jp raw conn = Except.ok (m2, conn2)) :
    conn2.roomList.map Room.id = conn.roomList.map Room.id := by
  have haux := roomIds_parseLineAux jp raw conn
  rw [h] at haux
  simpa [connOf] using haux

/-- The roominfo payload of the C6 scenario: an unknown room ID together
with auth and user data that would be applied if the room were created. -/
def roomData6 : RoomData :=
  ⟨some "newroom", some [('#', {"someowner"})], some ["user1"]⟩

/-- C6 counterexample: a `roominfo` payload naming the unknown room ID
"newroom", decoded on a session tracking no rooms, creates nothing — the
session is unchanged, the room stays unknown, no auth or membership is
applied — and the same holds when the full queryresponse line is
decoded. This contradicts the claimed lazy Room creation. -/
theorem roominfo_unknown_room_not_created :
    handleRoomInfo (Conn.make "" false) roomData6 = Conn.make "" false ∧
      getRoom (handleRoomInfo (Conn.make "" false) roomData6) "newroom"
        = none ∧
      (handleRoomInfo (Conn.make "" false) roomData6).userList = [] ∧
      parseLine (fun s => if s = "\x7bnewroom roominfo\x7d"
            then Except.ok roomData6 else Except.error PyError.valueError)
          "|queryresponse|roominfo|\x7bnewroom roominfo\x7d"
          (Conn.make "" false)
        = Except.ok
            (Msg.start "|queryresponse|roominfo|\x7bnewroom roominfo\x7d"
              "queryresponse",
             Conn.make "" false) := by
  refine ⟨rfl, rfl, rfl, by decide⟩

/-- C6 (amended): a `roominfo` query response whose payload names a room
ID not currently tracked applies nothing — the session is returned
unchanged, the Room is not created — and no message type ever creates a
Room implicitly: every successful decode leaves the room-ID list of the
session exactly as it was. -/
theorem no_implicit_room_creation :
    (∀ (conn : Conn) (rd : RoomData) (rid : String),
        rd.id = some rid → getRoom conn rid = none →
        handleRoomInfo conn rd = conn) ∧
    (∀ (jp : String → Except PyError RoomData) (raw : String) (conn : Conn)
        (m2 : Msg) (conn2 : Conn),
        parseLine jp raw conn = Except.ok (m2, conn2) →
        conn2.roomList.map Room.id = conn.roomList.map Room.id) := by
  constructor
  · intro conn rd rid hid hmiss
    obtain ⟨oid, oauth, ousers⟩ := rd
    obtain rfl : oid = some rid := hid
    simp [handleRoomInfo, hmiss]
  · exact roomIds_parseLine

/-- C6 witness: the amended theorem applied concretely — a roominfo
payload for the untracked ID "unseen" leaves the session unchanged, and
decoding "|init" on the lobby-tracking session preserves its room-ID
list. -/
theorem no_implicit_room_creation_witness :
    handleRoomInfo (Conn.make "x" false) ⟨some "unseen", none, none⟩
        = Conn.make "x" false ∧
      (Conn.make "x" false).roomList.map Room.id
        = (Conn.make "x" false).roomList.map Room.id :=
  ⟨no_implicit_room_creation.1 (Conn.make "x" false)
      ⟨some "unseen", none, none⟩ "unseen" rfl rfl,
   no_implicit_room_creation.2 (fun _ => Except.error PyError.valueError)
      "|init" (Conn.make "x" false) (Msg.start "|init" "init")
      (Conn.make "x" false) rfl⟩

end PSClient
